import Mathlib

/-
Shallow embedding of the dbtestify core engine (github.com/shibukawa/dbtestify):
the dataset model and YAML unmarshalling, the tag filter, the kind-aware
primary-key comparator, the sorted-merge table diff and the row diff of the
assert engine, the seed state machine, and the PostgreSQL delete-statement
generation.  Go `any` row values are modelled by `GoValue`; Go panics are
modelled by the `GoPanic` error type of an `Except` result; Go string-typed
enums (`AssertStatus`, `Operation`, `MatchStrategy`) are modelled as `String`
with the constants of the source.
-/

set_option autoImplicit false
set_option linter.dupNamespace false

namespace Dbtestify

/-- Scalar Go `any` values occurring in dbtestify rows: nil, int (all Go
integer kinds are narrowed to `int` by the parser and by `fetchTableData`),
float64 (modelled as a rational: every finite float64 is rational; NaN/Inf do
not occur in YAML scalars), string and bool.  YAML timestamps are not needed
by any claim and are omitted. -/
inductive GoScalar where
  | null
  | int (n : Int)
  | float (q : ℚ)
  | str (s : String)
  | bool (b : Bool)
  deriving DecidableEq, Repr

/-- Go `any` row values: a scalar, or a `[]any` sequence (the placeholder
values `[null]`, `[notnull]`, `[any]` of the dataset format).  Sequence
elements are YAML scalars; the engine never nests sequences. -/
inductive GoValue where
  | scalar (v : GoScalar)
  | seq (xs : List GoScalar)
  deriving DecidableEq, Repr

/-- Rendering used by `fmt.Sprint`, to which the comparators fall back.
Exact for the kinds the claims exercise: ints render in decimal, strings
render as themselves, nil renders as its Go text.  Floats with a
non-integral value use the rational's textual form as a stand-in for Go's
shortest-decimal rendering (no claim depends on that case); integral floats
render without a decimal point exactly as Go prints them. -/
def goScalarSprint : GoScalar → String
  | .null => "<nil>"
  | .int n => toString n
  | .float q => if q.den = 1 then toString q.num else toString q
  | .str s => s
  | .bool b => if b then "true" else "false"

/-- Value rendering of `fmt.Sprint`; Go prints a `[]any` as the
space-separated renderings of its elements in brackets. -/
def goSprint : GoValue → String
  | .scalar v => goScalarSprint v
  | .seq xs => "[" ++ String.intercalate " " (xs.map goScalarSprint) ++ "]"

/-- Go `cmp.Compare` result as the `int` the source stores in `c`:
-1, 0 or 1.  Keeping the integer codes (rather than `Ordering`) is essential:
the source reuses -1 both as comparison result and as its own
"can't convert to primitive" sentinel. -/
def cmpCompare (o : Ordering) : Int :=
  match o with
  | .lt => -1
  | .eq => 0
  | .gt => 1

/-- One column step of the kind-aware comparator.  This body appears twice in
the source, verbatim: inside `comparePkey` (assert.go) and inside the
`slices.SortFunc` closure of `sortRow` (dataset.go).  `c` starts at -1;
the type switch overwrites it only when both values have the same primitive
kind; afterwards `if c == -1` falls back to comparing the `fmt.Sprint`
renderings — note that this test cannot distinguish the sentinel from a
genuine native less-than result. -/
def compareColumn (v1 v2 : GoValue) : Int :=
  let c : Int :=
    match v1, v2 with
    | .scalar (.int a), .scalar (.int b) => cmpCompare (compare a b)
    | .scalar (.float a), .scalar (.float b) => cmpCompare (compare a b)
    | .scalar (.str a), .scalar (.str b) => cmpCompare (compare a b)
    | _, _ => -1
  if c = -1 then cmpCompare (compare (goSprint v1) (goSprint v2)) else c

/-- Key/value pair of a normalized row (source type `Value`). -/
structure Value where
  Key : String
  Value : GoValue
  deriving DecidableEq, Repr

/-- Walks paired primary-key columns, returning the first nonzero column
comparison (the `if c != 0 return c` of the source loops). -/
def compareCols : List (Value × Value) → Int
  | [] => 0
  | (v1, v2) :: rest =>
    let c := compareColumn v1.Value v2.Value
    if c ≠ 0 then c else compareCols rest

/-- Source `comparePkey(pkeyCount, key1, key2)`: compares the first
`pkeyCount` columns of two normalized rows.  The source indexes
`key1[i]`/`key2[i]` for `i < pkeyCount` and would panic on shorter rows;
this embedding is used (as in the source) only on rows with at least
`pkeyCount` columns. -/
def comparePkey (pkeyCount : Nat) (key1 key2 : List Value) : Int :=
  compareCols ((key1.take pkeyCount).zip (key2.take pkeyCount))

/-- The comparator closure passed to `slices.SortFunc` inside `sortRow`:
it duplicates `comparePkey`'s body, keyed on `len(sortKeys)` columns.
`sortRow` itself calls Go's unstable pdqsort with this closure; with an
inconsistent comparator (see `compareColumn`) the resulting permutation is
implementation-defined, so the embedding captures the comparator, which is
what the ordering claims are about. -/
def sortRowCmp (sortKeys : List String) (ri rj : List Value) : Int :=
  compareCols ((ri.take sortKeys.length).zip (rj.take sortKeys.length))

/-- Source `filter(src, includes, excludes)` (dataset.go): reject when any
exclude tag is present, then accept when the include list is empty, then
accept iff every include tag is present. -/
def filter (src includes excludes : List String) : Bool :=
  if excludes.any (fun e => src.contains e) then false
  else if includes.length = 0 then true
  else includes.all (fun i => src.contains i)

/-- Source `AssertStatus`, a Go string type; the Go zero value is `""`
(it appears in the `Diff` entries of `OnlyOnExpect`/`OnlyOnActual` rows,
whose per-field `Status` is never set). -/
abbrev AssertStatus := String

def Match : AssertStatus := "match"

def NotMatch : AssertStatus := "not-match"

def OnlyOnExpect : AssertStatus := "only-e"

def OnlyOnActual : AssertStatus := "only-a"

def WrongDataSet : AssertStatus := "wrongDataSet"

/-- Source `MatchStrategy`, a Go string type. -/
abbrev MatchStrategy := String

def ExactMatchStrategy : MatchStrategy := "exact"

def SubMatchStrategy : MatchStrategy := "sub"

/-- Source `Diff` (one field of a row diff).  Go zero values stand in for
unset fields: `Expect`/`Actual` default to nil and `Status` to `""`,
exactly as `Diff{Key: k, Expect: v}` leaves them in the source. -/
structure Diff where
  Key : String
  Expect : GoValue
  Actual : GoValue
  Status : AssertStatus
  deriving DecidableEq, Repr

/-- Source `RowDiff`. -/
structure RowDiff where
  Fields : List Diff
  Status : AssertStatus
  deriving DecidableEq, Repr

/-- Source `AssertTableResult`. -/
structure AssertTableResult where
  Name : String
  PrimaryKeys : List String
  Rows : List RowDiff
  Status : AssertStatus
  deriving DecidableEq, Repr

/-- Go runtime panics that the diff code can raise: indexing `s[0]` of an
empty slice, the explicit `panic("not implemented: [token]")` for an
unsupported placeholder, and the `s[0].(string)` type assertion in that
panic's message for a non-string token.  An `Except .error` with this type
means the Go code aborts by panicking instead of returning. -/
inductive GoPanic where
  | indexOutOfRange
  | notImplemented (token : String)
  | typeAssertionFailed
  deriving DecidableEq, Repr

/-- Non-primary-key part of `compareRow`: the two-pointer walk over the
field lists (both sorted by key), the placeholder switch on one-element
sequences, and the two drain loops.  Returns the emitted diffs and the
`allOk` flag, or the Go panic.  Matching the source: an equal key compares
values (placeholder sequences first), `e.Key > a.Key` silently skips the
actual-only field, `e.Key < a.Key` emits `WrongDataSet`; leftover expected
fields drain as `WrongDataSet`, leftover actual fields drain silently. -/
def compareFieldsAux : Nat → List Value → List Value → Except GoPanic (List Diff × Bool)
  | _, [], _ => .ok ([], true)
  | _, e :: es, [] =>
    .ok ((e :: es).map (fun f => (⟨f.Key, f.Value, .scalar .null, WrongDataSet⟩ : Diff)), false)
  | 0, _ :: _, _ :: _ => .ok ([], true)
  | fuel + 1, e :: es, a :: as_ =>
    if e.Key = a.Key then
      match e.Value with
      | .seq s =>
        match s with
        | [] => .error .indexOutOfRange
        | s0 :: _ =>
          if s0 = .str "null" ∨ s0 = .null then
            let st := if a.Value = .scalar .null then Match else NotMatch
            match compareFieldsAux fuel es as_ with
            | .error p => .error p
            | .ok (ds, ok) =>
              .ok (⟨e.Key, e.Value, a.Value, st⟩ :: ds, (a.Value = .scalar .null) && ok)
          else if s0 = .str "notnull" then
            let st := if a.Value ≠ .scalar .null then Match else NotMatch
            match compareFieldsAux fuel es as_ with
            | .error p => .error p
            | .ok (ds, ok) =>
              .ok (⟨e.Key, e.Value, a.Value, st⟩ :: ds, (a.Value ≠ .scalar .null) && ok)
          else if s0 = .str "any" then
            match compareFieldsAux fuel es as_ with
            | .error p => .error p
            | .ok (ds, ok) => .ok (⟨e.Key, e.Value, a.Value, Match⟩ :: ds, ok)
          else
            match s0 with
            | .str t => .error (.notImplemented t)
            | _ => .error .typeAssertionFailed
      | .scalar v =>
        let st := if GoValue.scalar v = a.Value then Match else NotMatch
        match compareFieldsAux fuel es as_ with
        | .error p => .error p
        | .ok (ds, ok) =>
          .ok (⟨e.Key, .scalar v, a.Value, st⟩ :: ds, (GoValue.scalar v = a.Value) && ok)
    else if e.Key > a.Key then
      compareFieldsAux fuel (e :: es) as_
    else
      match compareFieldsAux fuel es (a :: as_) with
      | .error p => .error p
      | .ok (ds, _) => .ok (⟨e.Key, e.Value, .scalar .null, WrongDataSet⟩ :: ds, false)

/-- Entry point of the field walk with enough fuel for every iteration
(each iteration of the source loop advances `i` and/or `j`, so the combined
field count bounds the iteration count; the zero-fuel branch above is
unreachable from here). -/
def compareFields (expected actual : List Value) : Except GoPanic (List Diff × Bool) :=
  compareFieldsAux (expected.length + actual.length) expected actual

/-- Source `compareRow(offset, expected, actual)`: the first `offset` fields
(the primary-key columns) are copied into `Match` diffs, the remaining
fields go through `compareFields`, and the row status is `Match` iff every
emitted diff matched.  The source indexes `expected[o]`/`actual[o]` for
`o < offset` and would panic on shorter rows. -/
def compareRow (offset : Nat) (expected actual : List Value) : Except GoPanic RowDiff :=
  if offset ≤ expected.length ∧ offset ≤ actual.length then
    let pkDiffs := ((expected.take offset).zip (actual.take offset)).map
      (fun p => (⟨p.1.Key, p.1.Value, p.2.Value, Match⟩ : Diff))
    match compareFields (expected.drop offset) (actual.drop offset) with
    | .error p => .error p
    | .ok (ds, allOk) => .ok ⟨pkDiffs ++ ds, if allOk then Match else NotMatch⟩
  else .error .indexOutOfRange

/-- Row emitted for an expected row with no pk-equal actual row:
every field becomes `Diff{Key, Expect}` (Go zero values elsewhere). -/
def onlyRowExpect (e : List Value) : RowDiff :=
  ⟨e.map (fun f => (⟨f.Key, f.Value, .scalar .null, ""⟩ : Diff)), OnlyOnExpect⟩

/-- Row emitted for an actual row with no pk-equal expected row:
every field becomes `Diff{Key, Actual}` (Go zero values elsewhere). -/
def onlyRowActual (a : List Value) : RowDiff :=
  ⟨a.map (fun f => (⟨f.Key, .scalar .null, f.Value, ""⟩ : Diff)), OnlyOnActual⟩

/-- The merge loop of `compareTable`:
`for i < len(expected) && j < len(actual) && c < 10`.  The counter `c` is
incremented every iteration and bounds the loop at ten iterations — the
source contains this guard, so the merge stops after ten steps with the
remaining rows untouched.  The first argument is the remaining iteration
budget `10 - c` (the counter is used only in the loop guard), so the loop
starts with budget 10.  Returns the emitted rows, the running `ok` flag,
and both leftover row lists (drained by the caller). -/
def compareTableMerge (strategy : MatchStrategy) (pkeyCount : Nat) :
    Nat → List (List Value) → List (List Value) →
      Except GoPanic (List RowDiff × Bool × List (List Value) × List (List Value))
  | 0, es, as_ => .ok ([], true, es, as_)
  | budget + 1, e :: es, a :: as_ =>
    let cr := comparePkey pkeyCount e a
    if cr = 0 then
      match compareRow pkeyCount e a with
      | .error p => .error p
      | .ok row =>
        match compareTableMerge strategy pkeyCount budget es as_ with
        | .error p => .error p
        | .ok (rows, ok, re, ra) =>
          .ok (row :: rows, (decide (row.Status = Match)) && ok, re, ra)
    else if cr = -1 then
      match compareTableMerge strategy pkeyCount budget es (a :: as_) with
      | .error p => .error p
      | .ok (rows, _, re, ra) => .ok (onlyRowExpect e :: rows, false, re, ra)
    else if cr = 1 then
      if strategy = ExactMatchStrategy then
        match compareTableMerge strategy pkeyCount budget (e :: es) as_ with
        | .error p => .error p
        | .ok (rows, _, re, ra) => .ok (onlyRowActual a :: rows, false, re, ra)
      else
        compareTableMerge strategy pkeyCount budget (e :: es) as_
    else
      compareTableMerge strategy pkeyCount budget (e :: es) (a :: as_)
  | _ + 1, es, as_ => .ok ([], true, es, as_)

/-- Source `compareTable(tableName, strategy, pKeys, expected, actual)`:
runs the (ten-iteration-capped) merge, drains leftover expected rows as
`OnlyOnExpect`, drains leftover actual rows as `OnlyOnActual` only under
the exact strategy, and reports `Match` iff no non-matching row was
emitted. -/
def compareTable (tableName : String) (strategy : MatchStrategy) (pKeys : List String)
    (expected actual : List (List Value)) : Except GoPanic AssertTableResult :=
  match compareTableMerge strategy pKeys.length 10 expected actual with
  | .error p => .error p
  | .ok (rows, ok, restE, restA) =>
    let rows := rows ++ restE.map onlyRowExpect
    let ok := ok && restE.isEmpty
    let rows := rows ++ (if strategy = ExactMatchStrategy then restA.map onlyRowActual else [])
    let ok := ok && (decide (strategy ≠ ExactMatchStrategy) || restA.isEmpty)
    .ok ⟨tableName, pKeys, rows, if ok then Match else NotMatch⟩

/-- Source `Operation`, a Go string type whose zero value `""` marks an
unspecified operation (`opt.Operations[name]` on a missing key). -/
abbrev Operation := String

def ClearInsertOperation : Operation := "clear-insert"

def InsertOperation : Operation := "insert"

def UpsertOperation : Operation := "upsert"

def DeleteOperation : Operation := "delete"

def TruncateOperation : Operation := "truncate"

/-- Source `Table`: name, rows (each row a `map[string]any`, modelled as an
association list with pairwise-distinct keys) and one tag list per row.
The parser maintains `len(Tags) == len(Rows)`. -/
structure Table where
  Name : String
  Rows : List (List (String × GoValue))
  Tags : List (List String)
  deriving DecidableEq, Repr

/-- Source `DataSet` (and the private `dataSet` decode target, which has the
same three fields).  The `Operation` and `Match` maps are association lists
with pairwise-distinct keys. -/
structure DataSet where
  Operation : List (String × Operation)
  Match : List (String × MatchStrategy)
  Tables : List Table
  deriving DecidableEq, Repr

/-- Comma-splitting of a string `_tag` value: `strings.Split` on `","`,
`strings.TrimSpace` each piece, drop empties. -/
def splitTags (s : String) : List String :=
  ((s.splitOn ",").map String.trim).filter (fun t => t ≠ "")

/-- Tag extraction from a `_tag` row value: a string is comma-split, a
sequence is element-wise stringified (strings kept as-is, other scalars via
their `fmt.Sprintf` rendering), anything else is the parse error of the
source. -/
def tagStrings (v : GoValue) : Except String (List String) :=
  match v with
  | .scalar (.str s) => .ok (splitTags s)
  | .seq xs =>
    .ok (xs.map (fun t => match t with | .str s => s | other => goScalarSprint other))
  | other =>
    .error ("parse error: tag should be string or [string...], but: " ++ goSprint other)

/-- One top-level raw YAML value as `UnmarshalYAML` re-decodes it: either a
string-to-string mapping (the shape `_operation` and `_match` decode into)
or a sequence of row mappings (the shape a table body decodes into).
Shape-mismatch decode errors of the source are represented by using the
wrong constructor for a reserved key. -/
inductive RawVal where
  | kv (entries : List (String × String))
  | rows (rs : List (List (String × GoValue)))
  deriving DecidableEq, Repr

/-- Row conversion inside `UnmarshalYAML`'s table branch: iterate a raw row's
entries; a `_tag` entry contributes tags (or fails), every other entry goes
into the row map.  The uint64/int64-to-int narrowing of the source is the
identity here because `GoScalar.int` already models the canonical integer
kind. -/
def convertRowLoop :
    List (String × GoValue) → List (String × GoValue) → List String →
      Except String (List (String × GoValue) × List String)
  | [], acc, tags => .ok (acc, tags)
  | (k, v) :: rest, acc, tags =>
    if k = "_tag" then
      match tagStrings v with
      | .error e => .error e
      | .ok ts => convertRowLoop rest acc (tags ++ ts)
    else convertRowLoop rest (acc ++ [(k, v)]) tags

/-- Table conversion inside `UnmarshalYAML`'s default branch: convert every
raw row, collecting row maps and per-row tag lists in row order. -/
def convertRows :
    List (List (String × GoValue)) → Except String (List (List (String × GoValue)) × List (List String))
  | [] => .ok ([], [])
  | r :: rest =>
    match convertRowLoop r [] [] with
    | .error e => .error e
    | .ok (row, tags) =>
      match convertRows rest with
      | .error e => .error e
      | .ok (rows, tagss) => .ok (row :: rows, tags :: tagss)

/-- Source `dataSet.UnmarshalYAML` after the initial decode into
`map[string]any`: iterate the top-level entries, handling `_operation`,
`_match` and table bodies.  CRUCIAL MODELLING POINT: the source ranges over a
Go `map[string]any`, whose iteration order is unspecified (and randomized by
the runtime), so this function takes the entries in ITERATION order — which
the Go runtime does not guarantee to be the document order. -/
def unmarshalLoop : List (String × RawVal) → DataSet → Except String DataSet
  | [], acc => .ok acc
  | (key, val) :: rest, acc =>
    if key = "_operation" then
      match val with
      | .kv m => unmarshalLoop rest ⟨m, acc.Match, acc.Tables⟩
      | .rows _ => .error "failed to unmarshal _strategy"
    else if key = "_match" then
      match val with
      | .kv m => unmarshalLoop rest ⟨acc.Operation, m, acc.Tables⟩
      | .rows _ => .error "failed to unmarshal _strategy"
    else
      match val with
      | .rows rs =>
        match convertRows rs with
        | .error e => .error e
        | .ok (rows, tagss) =>
          unmarshalLoop rest ⟨acc.Operation, acc.Match, acc.Tables ++ [⟨key, rows, tagss⟩]⟩
      | .kv _ => .error ("failed to unmarshal key " ++ key)

/-- Entry point of the unmarshalling of one YAML document, starting from the
zero-valued `dataSet`. -/
def unmarshalDataSet (entries : List (String × RawVal)) : Except String DataSet :=
  unmarshalLoop entries ⟨[], [], []⟩

/-- Result of `yaml.Decoder.Decode` as `ParseYAML` observes it.  Modelled
from the goccy/go-yaml library contract: decoding an empty input stream
(end of input before any document) returns `io.EOF` and leaves the decode
target at its zero value; otherwise `dataSet.UnmarshalYAML` runs on the
document's top-level entries (in map-iteration order). -/
inductive DecodeResult where
  | ok (d : DataSet)
  | eof
  | fail (e : String)
  deriving DecidableEq, Repr

/-- Decode step used by `ParseYAML`: `none` is the empty input stream. -/
def decodeDocument : Option (List (String × RawVal)) → DecodeResult
  | none => .eof
  | some entries =>
    match unmarshalDataSet entries with
    | .ok d => .ok d
    | .error e => .fail e

/-- Source `ParseYAML(r)`: decode one document; an error is returned only
when it is not `io.EOF` (`if err != nil && !errors.Is(err, io.EOF)`); on
`io.EOF` the zero-valued `dataSet` is converted into an (empty) `DataSet`. -/
def ParseYAML (input : Option (List (String × RawVal))) : Except String DataSet :=
  match decodeDocument input with
  | .fail e => .error e
  | .eof => .ok ⟨[], [], []⟩
  | .ok d => .ok d

/-- Placeholder string `$1, $2, …` tuples of the PostgreSQL adapter
(source `pgPlaceholders(columns, rows)`): `rows` parenthesized groups of
`columns` placeholders, numbered consecutively from `$1`. -/
def pgPlaceholders (columns rows : Nat) : String :=
  String.intercalate ", " ((List.range rows).map (fun r =>
    "(" ++ String.intercalate ", "
      ((List.range columns).map (fun i => "$" ++ toString (r * columns + i + 1))) ++ ")"))

/-- Statement text generated by `psqlDBConnector.Delete`.  Mirrors the
source: for a composite key, `columnStr` keeps its zero value `""` and the
placeholders come from `pgPlaceholders`; for a single pk column the
placeholder loop ranges over `len(columns)` — which is 1 — rather than
`len(values)`.  `none` models the `columns[0]` panic on an empty column
list. -/
def psqlDeleteStmt (tableName : String) (columns : List String) (values : List GoValue) :
    Option String :=
  if columns.length > 1 then
    some ("DELETE FROM " ++ tableName ++ " WHERE " ++ "" ++ " IN ("
      ++ pgPlaceholders columns.length (values.length / columns.length) ++ ")")
  else
    match columns with
    | [] => none
    | c0 :: _ =>
      let placeholderStr := String.intercalate ", "
        ((List.range columns.length).map (fun i => "$" ++ toString (i + 1)))
      some ("DELETE FROM " ++ tableName ++ " WHERE " ++ c0 ++ " IN (" ++ placeholderStr ++ ")")

/-- Number of `$n` parameter placeholders in a generated statement. -/
def countPlaceholders (s : String) : Nat :=
  (s.toList.filter (fun ch => ch = '$')).length

/-- SQL statements the seed engine issues through the driver adapter, all on
the single transaction `tx`. -/
inductive SeedStmt where
  | truncateTable (table : String)
  | insertRows (table : String) (columns : List String) (values : List GoValue)
  | upsertRows (table : String) (columns pKeys : List String) (values : List GoValue)
  | deleteRows (table : String) (columns : List String) (values : List GoValue)
  deriving DecidableEq, Repr

/-- One invocation of the seed progress callback
(`opt.Callback(table, task, start, err)`). -/
structure CbEvent where
  table : String
  task : String
  start : Bool
  err : Option String
  deriving DecidableEq, Repr

/-- Source `SeedOpt` (the callback itself is modelled by the event trace the
engine produces). -/
structure SeedOpt where
  BatchSize : Nat
  Operations : List (String × Operation)
  IncludeTags : List String
  ExcludeTags : List String
  TargetTables : List String
  deriving Repr

/-- Driver-adapter behaviour as the seed engine observes it: whether
`BeginTx` fails, whether `Commit` succeeds, what `PrimaryKeys` returns per
table, and which statement executions fail.  (`PrimaryKeys` reads outside
the transaction and does not change state.) -/
structure SeedConnector where
  beginErr : Option String
  commitOk : Bool
  primaryKeys : String → Except String (List String)
  exec : SeedStmt → Option String

/-- Go map read `opt.Operations[name]` — zero value `""` on a missing key. -/
def lookupOp (ops : List (String × Operation)) (t : String) : Operation :=
  match ops.find? (fun p => p.1 = t) with
  | some p => p.2
  | none => ""

/-- Go map write `ops[name] = v`. -/
def setOp (ops : List (String × Operation)) (t : String) (v : Operation) :
    List (String × Operation) :=
  if ops.any (fun p => p.1 = t) then ops.map (fun p => if p.1 = t then (t, v) else p)
  else ops ++ [(t, v)]

/-- Operation-planning loop of `Seed` (seed.go lines 34-52): start from a
copy of the caller's `opt.Operations`; every in-scope table whose effective
operation is `ClearInsert`, unspecified, or `Truncate` is marked
`Truncate` in the plan. -/
def buildOps (data : DataSet) (opt : SeedOpt) : List (String × Operation) :=
  data.Tables.foldl (fun ops t =>
    if opt.TargetTables ≠ [] ∧ t.Name ∉ opt.TargetTables then ops
    else
      let op := lookupOp opt.Operations t.Name
      if op = ClearInsertOperation ∨ op = "" ∨ op = TruncateOperation then
        setOp ops t.Name TruncateOperation
      else ops) opt.Operations

/-- Truncate phase of `Seed` (seed.go lines 53-66): for every planned entry
marked `Truncate`, invoke the callback around the adapter's truncate and
abort on the first error.  The source ranges over the `ops` Go map in
unspecified order; the embedding processes the association list in its
list order (the claims settled here do not depend on that order).
Returns `(error, executed statements, callback events)`. -/
def truncatePhase (cn : SeedConnector) :
    List (String × Operation) → List SeedStmt → List CbEvent →
      Option String × List SeedStmt × List CbEvent
  | [], tx, tr => (none, tx, tr)
  | (t, op) :: rest, tx, tr =>
    if op = TruncateOperation then
      let e := cn.exec (.truncateTable t)
      let tr2 := tr ++ [⟨t, "truncate", true, none⟩, ⟨t, "truncate", false, e⟩]
      match e with
      | some msg => (some msg, tx, tr2)
      | none => truncatePhase cn rest (tx ++ [SeedStmt.truncateTable t]) tr2
    else truncatePhase cn rest tx tr

/-- Row batching of `processInsertOperation`/`processDeleteOperation`:
`t.Rows[i:end]` slices of `batchSize` rows (paired with their tag lists).
`Seed` replaces a zero batch size by the default 50 before this is called,
so `bs ≥ 1`; Go's loop would not advance on `bs = 0`.  The `Nat` argument
is structural fuel, initialised to the list length, which bounds the number
of chunks; the zero-fuel branch is unreachable from `listChunks`. -/
def listChunksAux {α : Type} (bs : Nat) : Nat → List α → List (List α)
  | _, [] => []
  | 0, l => [l]
  | fuel + 1, x :: xs => (x :: xs.take (bs - 1)) :: listChunksAux bs fuel (xs.drop (bs - 1))

def listChunks {α : Type} (bs : Nat) (l : List α) : List (List α) :=
  listChunksAux bs l.length l

/-- Insertion of a string into a sorted list; `sortStrings` models
`slices.Sorted(maps.Keys(m))`, the sorted key set of a Go map. -/
def insertSorted (x : String) : List String → List String
  | [] => [x]
  | y :: ys => if x ≤ y then x :: y :: ys else y :: insertSorted x ys

def sortStrings (l : List String) : List String :=
  l.foldr insertSorted []

/-- Column set of one batch: the union of the keys of every row of the batch
(including rows the tag filter later drops, as in the source), sorted. -/
def batchColumns (batch : List (List (String × GoValue) × List String)) : List String :=
  sortStrings ((batch.map (fun r => r.1.map Prod.fst)).flatten.dedup)

/-- Go map read `r[c]`: the value when present, otherwise SQL null
(`values = append(values, nil)`). -/
def lookupVal (row : List (String × GoValue)) (c : String) : GoValue :=
  match row.find? (fun p => p.1 = c) with
  | some p => p.2
  | none => .scalar .null

/-- Flat value list of one batch: tag-filtered rows projected onto the
column order, absent columns as null. -/
def batchValues (opt : SeedOpt) (columns : List String)
    (batch : List (List (String × GoValue) × List String)) : List GoValue :=
  (batch.map (fun r =>
    if filter r.2 opt.IncludeTags opt.ExcludeTags then columns.map (fun c => lookupVal r.1 c)
    else [])).flatten

/-- Batch loop of `processInsertOperation`: one insert (or upsert) statement
per batch, aborting on the first failed execution. -/
def insertBatches (cn : SeedConnector) (opt : SeedOpt) (tableName : String)
    (upsert : Bool) (pKeys : List String) :
    List (List (List (String × GoValue) × List String)) → List SeedStmt →
      Option String × List SeedStmt
  | [], tx => (none, tx)
  | b :: rest, tx =>
    let columns := batchColumns b
    let values := batchValues opt columns b
    let stmt := if upsert then SeedStmt.upsertRows tableName columns pKeys values
      else SeedStmt.insertRows tableName columns values
    match cn.exec stmt with
    | some e => (some e, tx)
    | none => insertBatches cn opt tableName upsert pKeys rest (tx ++ [stmt])

/-- Source `processInsertOperation(ctx, dbc, tx, t, opt, upsert)`: discover
primary keys first when upserting, then run the batch loop. -/
def processInsertOperation (cn : SeedConnector) (t : Table) (opt : SeedOpt)
    (upsert : Bool) (tx : List SeedStmt) : Option String × List SeedStmt :=
  if upsert then
    match cn.primaryKeys t.Name with
    | .error e => (some e, tx)
    | .ok pk =>
      insertBatches cn opt t.Name true pk (listChunks opt.BatchSize (t.Rows.zip t.Tags)) tx
  else
    insertBatches cn opt t.Name false [] (listChunks opt.BatchSize (t.Rows.zip t.Tags)) tx

/-- Batch loop of `processDeleteOperation`: one delete statement per batch
over the primary-key columns. -/
def deleteBatches (cn : SeedConnector) (opt : SeedOpt) (tableName : String)
    (columns : List String) :
    List (List (List (String × GoValue) × List String)) → List SeedStmt →
      Option String × List SeedStmt
  | [], tx => (none, tx)
  | b :: rest, tx =>
    let values := batchValues opt columns b
    let stmt := SeedStmt.deleteRows tableName columns values
    match cn.exec stmt with
    | some e => (some e, tx)
    | none => deleteBatches cn opt tableName columns rest (tx ++ [stmt])

/-- Source `processDeleteOperation(ctx, dbc, tx, t, opt)`. -/
def processDeleteOperation (cn : SeedConnector) (t : Table) (opt : SeedOpt)
    (tx : List SeedStmt) : Option String × List SeedStmt :=
  match cn.primaryKeys t.Name with
  | .error e => (some e, tx)
  | .ok columns =>
    deleteBatches cn opt t.Name columns (listChunks opt.BatchSize (t.Rows.zip t.Tags)) tx

/-- Data phase of `Seed` (seed.go lines 67-112): tables in dataset order,
dispatching on the caller's per-table operation.  NOTE the callback
arguments taken verbatim from the source: the closing insert and upsert
callbacks pass the literal `nil` (seed.go lines 84 and 95), while the
closing truncate and delete callbacks pass the operation's error. -/
def dataPhase (cn : SeedConnector) (opt : SeedOpt) :
    List Table → List SeedStmt → List CbEvent →
      Option String × List SeedStmt × List CbEvent
  | [], tx, tr => (none, tx, tr)
  | t :: rest, tx, tr =>
    if opt.TargetTables ≠ [] ∧ t.Name ∉ opt.TargetTables then dataPhase cn opt rest tx tr
    else
      let op := lookupOp opt.Operations t.Name
      if op = ClearInsertOperation ∨ op = "" ∨ op = InsertOperation then
        let r := processInsertOperation cn t opt false tx
        let tr2 := tr ++ [⟨t.Name, "insert", true, none⟩, ⟨t.Name, "insert", false, none⟩]
        match r.1 with
        | some msg => (some msg, r.2, tr2)
        | none => dataPhase cn opt rest r.2 tr2
      else if op = UpsertOperation then
        let r := processInsertOperation cn t opt true tx
        let tr2 := tr ++ [⟨t.Name, "upsert", true, none⟩, ⟨t.Name, "upsert", false, none⟩]
        match r.1 with
        | some msg => (some msg, r.2, tr2)
        | none => dataPhase cn opt rest r.2 tr2
      else if op = DeleteOperation then
        let r := processDeleteOperation cn t opt tx
        let tr2 := tr ++ [⟨t.Name, "delete", true, none⟩, ⟨t.Name, "delete", false, r.1⟩]
        match r.1 with
        | some msg => (some msg, r.2, tr2)
        | none => dataPhase cn opt rest r.2 tr2
      else dataPhase cn opt rest tx tr

/-- Transactional run of `Seed`: begin, truncate phase, data phase.
Returns the first error (if any), the journal of statements executed on the
transaction, and the callback event trace. -/
def seedRun (cn : SeedConnector) (data : DataSet) (opt : SeedOpt) :
    Option String × List SeedStmt × List CbEvent :=
  match cn.beginErr with
  | some e => (some e, [], [])
  | none =>
    let ops := buildOps data opt
    match truncatePhase cn ops [] [] with
    | (some e, tx, tr) => (some e, tx, tr)
    | (none, tx, tr) => dataPhase cn opt data.Tables tx tr

/-- Outcome of `Seed` over an abstract database state `σ`:
the returned error, the database state after the call, and the callback
trace. -/
structure SeedResult (σ : Type) where
  err : Option String
  db : σ
  trace : List CbEvent

/-- Batch-size defaulting at the top of `Seed`:
`if opt.BatchSize == 0 { opt.BatchSize = DefaultBatchSize }`. -/
def defaultBatch (opt : SeedOpt) : SeedOpt :=
  ⟨if opt.BatchSize = 0 then 50 else opt.BatchSize,
    opt.Operations, opt.IncludeTags, opt.ExcludeTags, opt.TargetTables⟩

/-- Source `Seed(ctx, dbc, data, opt)` over an abstract database state:
`apply` is the database's semantics for one statement.  A zero batch size
becomes the default 50.  Every statement runs on the single transaction
(the journal); `defer tx.Rollback()` discards the journal on every error
return, and the journal is applied to the state only by the final
`tx.Commit()` — whose own error the source ignores (`Seed` still returns
nil, and a failed commit leaves the state unchanged). -/
def Seed {σ : Type} (cn : SeedConnector) (apply : σ → SeedStmt → σ) (db : σ)
    (data : DataSet) (opt0 : SeedOpt) : SeedResult σ :=
  match seedRun cn data (defaultBatch opt0) with
  | (some e, _, tr) => ⟨some e, db, tr⟩
  | (none, tx, tr) => ⟨none, if cn.commitOk then tx.foldl apply db else db, tr⟩

/-- Single-pk-column row fixture for the table-diff theorems. -/
def idRow (n : Nat) : List Value :=
  [⟨"id", .scalar (.int (Int.ofNat n))⟩]

/-- Eleven pk-sorted rows with ids 0..10. -/
def elevenRows : List (List Value) :=
  (List.range 11).map idRow

/-- Ten pk-sorted rows with ids 0..9. -/
def tenRows : List (List Value) :=
  (List.range 10).map idRow

/-- One-table dataset fixture for the seed theorems. -/
def seedData : DataSet :=
  ⟨[], [], [⟨"user", [[("id", .scalar (.int 1))]], [[]]⟩]⟩

/-- Zero-valued seed options (batch size 0 is replaced by the default 50). -/
def seedOptZero : SeedOpt :=
  ⟨0, [], [], [], []⟩

/-- Journal-typed database semantics used as the concrete state in witnesses. -/
def applyJournal (s : List SeedStmt) (st : SeedStmt) : List SeedStmt :=
  s ++ [st]

/-- Connector whose insert statements fail. -/
def cnInsertFails : SeedConnector :=
  ⟨none, true, fun _ => .ok [],
    fun s => match s with | .insertRows _ _ _ => some "insert failed" | _ => none⟩

/-- Connector whose truncate statements fail. -/
def cnTruncateFails : SeedConnector :=
  ⟨none, true, fun _ => .ok [],
    fun s => match s with | .truncateTable _ => some "boom" | _ => none⟩

/-- Two-table document fixture (tables `alpha` then `beta` in document
order) for the parser-order theorem. -/
def docAlphaBeta : List (String × RawVal) :=
  [("alpha", .rows [[("id", .scalar (.int 1))]]),
   ("beta", .rows [[("id", .scalar (.int 2))]])]

/-- C1.  The claim says `compareTable` performs a full sorted merge, so two
identical pk-sorted sequences of any length yield status `Match` with one
`Match` row per input row.  The code bounds the merge loop by the counter
guard `c < 10`: with eleven identical rows only ten are merged, the last
row is drained as `OnlyOnExpect` and `OnlyOnActual`, and the table status is
`NotMatch`; with ten identical rows the claimed behaviour still holds. -/
theorem compareTable_merge_capped_at_ten :
    ((compareTable "member" ExactMatchStrategy ["id"] elevenRows elevenRows).map
        AssertTableResult.Status = .ok NotMatch)
  ∧ ((compareTable "member" ExactMatchStrategy ["id"] elevenRows elevenRows).map
        (fun r => r.Rows.map RowDiff.Status)
      = .ok [Match, Match, Match, Match, Match, Match, Match, Match, Match, Match,
          OnlyOnExpect, OnlyOnActual])
  ∧ ((compareTable "member" ExactMatchStrategy ["id"] tenRows tenRows).map
        AssertTableResult.Status = .ok Match) := by
  exact ⟨rfl, rfl, rfl⟩

/-- C2.  Whenever `Seed` returns a non-nil error, the database state is
unchanged: every statement runs on the single transaction journal, every
error path returns before commit, and the deferred rollback discards the
journal. -/
theorem Seed_error_rolls_back {σ : Type} (cn : SeedConnector) (apply : σ → SeedStmt → σ)
    (db : σ) (data : DataSet) (opt : SeedOpt) (e : String)
    (h : (Seed cn apply db data opt).err = some e) :
    (Seed cn apply db data opt).db = db := by
  unfold Seed at h ⊢
  rcases hr : seedRun cn data (defaultBatch opt) with ⟨oe, tx, tr⟩
  rw [hr] at h
  cases oe with
  | none => exact Option.noConfusion h
  | some msg => rfl

/-- Witness for C2: a concrete run whose truncate statement fails; the
journal-typed database stays empty. -/
theorem Seed_error_rolls_back_witness :
    (Seed cnTruncateFails applyJournal ([] : List SeedStmt) seedData seedOptZero).db = [] :=
  Seed_error_rolls_back cnTruncateFails applyJournal [] seedData seedOptZero "boom" rfl

/-- C3.  The claim says `ParseYAML` lists tables in document order.
`dataSet.UnmarshalYAML` ranges over the decoded `map[string]any`, whose
iteration order Go leaves unspecified (and randomizes), so the resulting
`Tables` sequence follows the runtime's map-iteration order: iterating the
same two-table document in reversed order reverses the table sequence. -/
theorem unmarshal_table_order_is_map_iteration_order :
    ((unmarshalDataSet docAlphaBeta).map (fun d => d.Tables.map Table.Name)
      = .ok ["alpha", "beta"])
  ∧ ((unmarshalDataSet docAlphaBeta.reverse).map (fun d => d.Tables.map Table.Name)
      = .ok ["beta", "alpha"]) := by
  exact ⟨rfl, rfl⟩

/-- C4.  The claim says same-kind primary-key values are ordered natively,
with the textual fallback reserved for mixed kinds.  The code initialises
`c = -1` and tests `c == -1` for the fallback, so a genuine native
less-than result (also -1) is re-compared textually: integer 2 versus
integer 10 gives "2" > "10", i.e. both `comparePkey` and the `sortRow`
comparator put 2 after 10 (and return 1 in both argument orders). -/
theorem comparePkey_int_native_order_violated :
    comparePkey 1 [⟨"id", .scalar (.int 2)⟩] [⟨"id", .scalar (.int 10)⟩] = 1
  ∧ comparePkey 1 [⟨"id", .scalar (.int 10)⟩] [⟨"id", .scalar (.int 2)⟩] = 1
  ∧ sortRowCmp ["id"] [⟨"id", .scalar (.int 2)⟩] [⟨"id", .scalar (.int 10)⟩] = 1 := by
  exact ⟨rfl, rfl, rfl⟩

/-- C5 counterexample.  The claim says an unsupported placeholder token is
reported as an error result rather than aborting: at this concrete input
`compareRow` instead raises the Go panic `not implemented: [unexpected]`
(an `Except.error GoPanic` here models a panic, i.e. a process abort, not a
returned error). -/
theorem compareRow_unsupported_token_panics_counterexample :
    compareRow 0 [⟨"key2", .seq [.str "unexpected"]⟩] [⟨"key2", .scalar (.int 1)⟩]
      = .error (.notImplemented "unexpected") := by
  exact rfl

/-- Helper for C5: one field walk step on an unsupported string token
reaches the default branch of the placeholder switch. -/
theorem compareFieldsAux_unsupported_token (fuel : Nat) (k t : String)
    (rest : List GoScalar) (a : GoValue) (es as_ : List Value)
    (h1 : t ≠ "null") (h2 : t ≠ "notnull") (h3 : t ≠ "any") :
    compareFieldsAux (fuel + 1) (⟨k, .seq (.str t :: rest)⟩ :: es) (⟨k, a⟩ :: as_)
      = .error (.notImplemented t) := by
  simp [compareFieldsAux, h1, h2, h3]

/-- C5 amended.  For every one-element-sequence expected value whose token
is a string other than "null", "notnull" and "any", `compareRow` panics with
`not implemented: [token]` instead of returning a row diff. -/
theorem compareRow_unsupported_token_panics (k t : String) (rest : List GoScalar)
    (a : GoValue) (h1 : t ≠ "null") (h2 : t ≠ "notnull") (h3 : t ≠ "any") :
    compareRow 0 [⟨k, .seq (.str t :: rest)⟩] [⟨k, a⟩]
      = .error (.notImplemented t) := by
  have h4 := compareFieldsAux_unsupported_token 1 k t rest a [] [] h1 h2 h3
  simp [compareRow, compareFields, h4]

/-- Witness for C5: the amended theorem applied at the token "foo". -/
theorem compareRow_unsupported_token_panics_witness :
    compareRow 0 [⟨"k", .seq [.str "foo"]⟩] [⟨"k", .scalar (.int 1)⟩]
      = .error (.notImplemented "foo") :=
  compareRow_unsupported_token_panics "k" "foo" [] (.scalar (.int 1))
    (by decide) (by decide) (by decide)

/-- C6.  The claim says the closing callback invocation carries the error
returned by the operation.  For insert (and upsert) the source passes the
literal nil to the closing callback: in this run the insert statement fails
and `Seed` returns that error, yet the closing insert event carries no
error. -/
theorem seed_insert_end_callback_drops_error :
    ((Seed cnInsertFails applyJournal ([] : List SeedStmt) seedData seedOptZero).err
      = some "insert failed")
  ∧ ((Seed cnInsertFails applyJournal ([] : List SeedStmt) seedData seedOptZero).trace
      = [⟨"user", "truncate", true, none⟩, ⟨"user", "truncate", false, none⟩,
         ⟨"user", "insert", true, none⟩, ⟨"user", "insert", false, none⟩]) := by
  exact ⟨rfl, rfl⟩

/-- C7.  The claim says the single-pk-column delete uses one placeholder per
value (`$1` through `$n`).  The source's placeholder loop ranges over
`len(columns)` — always 1 in that branch — so two values still produce the
single placeholder `$1`; the composite branch does produce one
row-constructor tuple per row. -/
theorem psql_delete_single_pk_placeholder_count :
    (psqlDeleteStmt "user" ["id"] [.scalar (.int 5), .scalar (.int 7)]
      = some "DELETE FROM user WHERE id IN ($1)")
  ∧ ((psqlDeleteStmt "user" ["id"] [.scalar (.int 5), .scalar (.int 7)]).map countPlaceholders
      = some 1)
  ∧ (psqlDeleteStmt "t" ["a", "b"]
      [.scalar (.int 1), .scalar (.int 2), .scalar (.int 3), .scalar (.int 4)]
      = some "DELETE FROM t WHERE  IN (($1, $2), ($3, $4))") := by
  exact ⟨rfl, rfl, rfl⟩

/-- C8.  The shared tag filter: any excluded tag present rejects the row;
otherwise an empty include list accepts; otherwise the row is accepted iff
every include tag is present. -/
theorem filter_exclude_priority_include_conjunctive (S I E : List String) :
    filter S I E = true ↔ (∀ e ∈ E, e ∉ S) ∧ (I = [] ∨ ∀ i ∈ I, i ∈ S) := by
  simp only [filter]
  split_ifs with hE hI
  · simp only [Bool.false_eq_true, false_iff]
    simp only [List.any_eq_true, List.elem_iff] at hE
    rcases hE with ⟨x, hxE, hxS⟩
    rintro ⟨hexc, -⟩
    exact hexc x hxE hxS
  · simp only [List.any_eq_true, List.elem_iff, not_exists, not_and] at hE
    simp only [true_iff]
    exact ⟨fun x hx => hE x hx, Or.inl (List.length_eq_zero.mp hI)⟩
  · simp only [List.any_eq_true, List.elem_iff, not_exists, not_and] at hE
    simp only [List.all_eq_true, List.elem_iff]
    constructor
    · intro hall
      exact ⟨fun x hx => hE x hx, Or.inr hall⟩
    · rintro ⟨-, hinc | hall⟩
      · exact absurd (congrArg List.length hinc) (by simpa using hI)
      · exact hall

/-- C9.  `ParseYAML` on an empty input stream: the decoder's `io.EOF` is
filtered out and the zero-valued decode target becomes a `DataSet` with no
operation entries, no match entries and no tables, with a nil error. -/
theorem ParseYAML_empty_stream_ok :
    ParseYAML none = .ok ⟨[], [], []⟩ := by
  exact rfl

/-- C10.  The claim says `compareRow` returns a result for every sequence
expected value, in particular for the empty sequence.  The source indexes
`s[0]` before the placeholder switch, so an empty sequence raises the
index-out-of-range panic instead of producing a `RowDiff`. -/
theorem compareRow_empty_sequence_panics :
    compareRow 0 [⟨"k", .seq []⟩] [⟨"k", .scalar (.int 1)⟩]
      = .error .indexOutOfRange := by
  exact rfl

end Dbtestify
